import Mathlib

set_option maxRecDepth 100000

/-!
# Verification of the QR data-exchange codec

Shallow embedding of the encode/decode pipeline of `rust-qr-data-exchange`:

* `src/crypto/mod.rs` — `crypto_utils`: `init`, `generate_salt`, `derive_key`,
  `encrypt`, `decrypt` over sodiumoxide's `pwhash::argon2i13` and `secretbox`
  (xsalsa20poly1305).
* `src/qr/processor.rs` — `QrDataProcessor::serialize` / `deserialize`:
  zstd-compress, encrypt, msgpack-pack the `{salt, encrypted}` record,
  base64-encode; and the exact inverse.
* `src/main.rs` — `generate_qr_async`'s size gate (`MAX_QR_BYTES`).

Bytes are modelled as `Nat` (no arithmetic is ever performed on them, only
structural operations, so no wraparound is involved). Rust strings appearing
on the transport boundary are modelled as lists of character codes
(`List Nat`), so the base64 layer maps byte lists to byte lists.

The external libraries (argon2 key derivation, secretbox authenticated
encryption, zstd, `rmp_serde` msgpack, base64) are not part of this
repository; they are modelled as an abstract interface `ExtLib` whose fields
carry exactly the contracts those libraries document (lengths and round-trip
laws). The repository's own code is embedded definitionally on top of that
interface. Randomness (`gen_salt`, `gen_nonce`) is modelled by passing the
generated salt/nonce as explicit arguments. A concrete executable instance
`testLib` witnesses that the interface is inhabited.
-/

/-- `sodiumoxide::crypto::pwhash::argon2i13::SALTBYTES` (32). -/
def SALTBYTES : Nat := 32

/-- `sodiumoxide::crypto::secretbox::NONCEBYTES` (24, xsalsa20poly1305). -/
def NONCEBYTES : Nat := 24

/-- `sodiumoxide::crypto::secretbox::KEYBYTES` (32). -/
def KEYBYTES : Nat := 32

/-- `sodiumoxide::crypto::secretbox::MACBYTES` (16): length of the
authentication tag that `secretbox::seal` adds to the plaintext. -/
def MACBYTES : Nat := 16

/-- `MAX_QR_BYTES` from `generate_qr_async` in `src/main.rs`. -/
def MAX_QR_BYTES : Nat := 2953

/-- `crypto_utils::CryptoError` from `src/crypto/mod.rs`. -/
inductive CryptoError where
  | KeyDerivationFailed
  | EncryptionFailed
  | DecryptionFailed
  | InvalidSalt
  | InvalidPassword
deriving DecidableEq

/-- `QrProcessorError` from `src/qr/processor.rs`. The payload of the
non-`Crypto` variants is the underlying library's error description. -/
inductive QrProcessorError where
  | Crypto (e : CryptoError)
  | Compression (msg : String)
  | Serialization (msg : String)
  | Base64 (msg : String)
deriving DecidableEq

instance {ε α : Type} [DecidableEq ε] [DecidableEq α] : DecidableEq (Except ε α) :=
  fun a b =>
    match a, b with
    | .ok x, .ok y =>
      if h : x = y then isTrue (by rw [h])
      else isFalse (fun hc => h (Except.ok.inj hc))
    | .error x, .error y =>
      if h : x = y then isTrue (by rw [h])
      else isFalse (fun hc => h (Except.error.inj hc))
    | .ok _, .error _ => isFalse (fun hc => Except.noConfusion hc)
    | .error _, .ok _ => isFalse (fun hc => Except.noConfusion hc)

/-- The `QrData` record from `src/qr/processor.rs`: the container that is
msgpack-packed and base64-encoded. -/
structure QrData where
  salt : List Nat
  encrypted : List Nat
deriving DecidableEq

/-- Abstract interface for the external libraries the pipeline calls.
Each law is the documented contract of the corresponding library function;
the repository's code is verified for every implementation satisfying them.
`argon2_derive` is the pure argon2i13 function (its only failure mode in the
library is resource exhaustion, an environment condition outside the
functional semantics). -/
structure ExtLib where
  /-- `pwhash::argon2i13::derive_key` at `OPSLIMIT_MODERATE`/`MEMLIMIT_MODERATE`:
  password bytes and salt bytes to `KEYBYTES` key bytes. -/
  argon2_derive : List Nat → List Nat → List Nat
  argon2_derive_len : ∀ p s, (argon2_derive p s).length = KEYBYTES
  /-- `secretbox::seal data nonce key`: ciphertext-with-tag. -/
  secretbox_seal : List Nat → List Nat → List Nat → List Nat
  secretbox_seal_len : ∀ d n k, (secretbox_seal d n k).length = d.length + MACBYTES
  /-- `secretbox::open ciphertext nonce key`: `some` plaintext or `none` on
  authentication failure. -/
  secretbox_open : List Nat → List Nat → List Nat → Option (List Nat)
  secretbox_open_seal : ∀ d n k, secretbox_open (secretbox_seal d n k) n k = some d
  /-- `zstd::encode_all` at level 16. -/
  zstd_encode_all : List Nat → Except String (List Nat)
  /-- `zstd::decode_all`. -/
  zstd_decode_all : List Nat → Except String (List Nat)
  zstd_decode_encode : ∀ d c, zstd_encode_all d = .ok c → zstd_decode_all c = .ok d
  /-- `rmp_serde::to_vec` on a `QrData`. -/
  rmp_to_vec : QrData → Except String (List Nat)
  /-- `rmp_serde::from_slice` into a `QrData`. -/
  rmp_from_slice : List Nat → Except String QrData
  rmp_from_to : ∀ r p, rmp_to_vec r = .ok p → rmp_from_slice p = .ok r
  /-- `general_purpose::STANDARD.encode` (byte list to character-code list). -/
  b64_encode : List Nat → List Nat
  /-- `general_purpose::STANDARD.decode`. -/
  b64_decode : List Nat → Except String (List Nat)
  b64_decode_encode : ∀ d, b64_decode (b64_encode d) = .ok d

namespace crypto_utils

/-- `crypto_utils::derive_key` from `src/crypto/mod.rs`: rejects the empty
password with `InvalidPassword`, otherwise derives the argon2i13 key. -/
def derive_key (L : ExtLib) (password salt : List Nat) : Except CryptoError (List Nat) :=
  if password = [] then .error .InvalidPassword
  else .ok (L.argon2_derive password salt)

/-- `crypto_utils::encrypt` from `src/crypto/mod.rs`: seals `data` under the
freshly generated `nonce` (passed explicitly here) and returns
`nonce ++ ciphertext` as one buffer. The only `Ok` branch of the source is
unconditional: encryption never fails. -/
def encrypt (L : ExtLib) (data key nonce : List Nat) : Except CryptoError (List Nat) :=
  .ok (nonce ++ L.secretbox_seal data nonce key)

/-- `crypto_utils::decrypt` from `src/crypto/mod.rs`: rejects buffers shorter
than `NONCEBYTES` with `DecryptionFailed`, splits the nonce prefix off
(`Nonce::from_slice` on a slice of exactly `NONCEBYTES` bytes always
succeeds, so that `ok_or` branch is not reachable) and opens the rest;
an authentication failure is `DecryptionFailed`. -/
def decrypt (L : ExtLib) (encrypted_data key : List Nat) : Except CryptoError (List Nat) :=
  if encrypted_data.length < NONCEBYTES then .error .DecryptionFailed
  else
    match L.secretbox_open (encrypted_data.drop NONCEBYTES)
        (encrypted_data.take NONCEBYTES) key with
    | some m => .ok m
    | none => .error .DecryptionFailed

/-- `crypto_utils::init` runs `sodiumoxide::init().expect(...)`. Modelled as a
state transition on the process-wide "library initialized" flag: `lib_ok`
says whether the underlying `sodiumoxide::init()` call would succeed now,
`already` whether a previous call already initialized the library (in which
case the library reports success regardless). The result is `none` when
`expect` panics — the call aborts; no `CryptoError` value exists for this
outcome — and `some` of the new flag otherwise. -/
def init_st (lib_ok already : Bool) : Option Bool :=
  if already then some true
  else if lib_ok then some true
  else none

end crypto_utils

namespace QrDataProcessor

open crypto_utils

/-- `QrDataProcessor::serialize` from `src/qr/processor.rs`. The freshly
generated random salt (`generate_salt`) and nonce (`secretbox::gen_nonce`
inside `encrypt`) are passed as explicit arguments. Stage order and error
mapping follow the source line by line. -/
def serialize (L : ExtLib) (raw_data password salt nonce : List Nat) :
    Except QrProcessorError (List Nat) :=
  match derive_key L password salt with
  | .error e => .error (.Crypto e)
  | .ok key =>
    match L.zstd_encode_all raw_data with
    | .error e => .error (.Compression e)
    | .ok compressed =>
      match encrypt L compressed key nonce with
      | .error e => .error (.Crypto e)
      | .ok encrypted =>
        match L.rmp_to_vec ⟨salt, encrypted⟩ with
        | .error e => .error (.Serialization e)
        | .ok packed => .ok (L.b64_encode packed)

/-- `QrDataProcessor::deserialize` from `src/qr/processor.rs`. The
`Salt::from_slice(...).ok_or(InvalidSalt)` step succeeds exactly when the
recovered salt has length `SALTBYTES`. -/
def deserialize (L : ExtLib) (input_string password : List Nat) :
    Except QrProcessorError (List Nat) :=
  match L.b64_decode input_string with
  | .error e => .error (.Base64 e)
  | .ok packed =>
    match L.rmp_from_slice packed with
    | .error e => .error (.Serialization e)
    | .ok qr_data =>
      if qr_data.salt.length = SALTBYTES then
        match derive_key L password qr_data.salt with
        | .error e => .error (.Crypto e)
        | .ok key =>
          match decrypt L qr_data.encrypted key with
          | .error e => .error (.Crypto e)
          | .ok decrypted =>
            match L.zstd_decode_all decrypted with
            | .error e => .error (.Compression e)
            | .ok decompressed => .ok decompressed
      else .error (.Crypto .InvalidSalt)

end QrDataProcessor

/-- The size gate of `generate_qr_async` in `src/main.rs` (lines 362–367):
after `serialize` returns, the caller rejects the text iff its length
reaches `MAX_QR_BYTES`. -/
def qr_size_gate (qr_text : List Nat) : Except String (List Nat) :=
  if qr_text.length ≥ MAX_QR_BYTES then .error "Die Datei ist zu gross"
  else .ok qr_text

/-! ## A concrete executable instance of the external-library interface

Used to evaluate the pipeline on concrete inputs. `encL` injectively encodes
a byte list into one number via the unique factorization `2 ^ b * (2 * x + 1)`,
so a 16-element tag can embed the whole key and detect any wrong key. -/

/-- Injective encoding of a byte list into a single number. -/
def encL : List Nat → Nat
  | [] => 0
  | b :: t => 2 ^ b * (2 * encL t + 1)

/-- Tag appended by the test cipher: embeds the whole key so that opening
with any other key fails. -/
def tagOf (k : List Nat) : List Nat := encL k :: List.replicate (MACBYTES - 1) 0

/-- The concrete test instance: identity compression, length-framed packing,
a marker-byte text encoding, and a cipher whose tag embeds the key. -/
def testLib : ExtLib where
  argon2_derive p s := (p ++ s ++ List.replicate KEYBYTES 0).take KEYBYTES
  argon2_derive_len p s := by
    simp [KEYBYTES]
    omega
  secretbox_seal d _n k := d ++ tagOf k
  secretbox_seal_len d n k := by
    simp [tagOf, MACBYTES]
  secretbox_open blob _n k :=
    if MACBYTES ≤ blob.length ∧ blob.drop (blob.length - MACBYTES) = tagOf k then
      some (blob.take (blob.length - MACBYTES))
    else none
  secretbox_open_seal d n k := by
    have hlen : (d ++ tagOf k).length = d.length + MACBYTES := by
      simp [tagOf, MACBYTES]
    have hsub : d.length + MACBYTES - MACBYTES = d.length := by omega
    simp only [hlen, hsub]
    have hdrop : (d ++ tagOf k).drop d.length = tagOf k := List.drop_left d (tagOf k)
    rw [if_pos ⟨by omega, hdrop⟩, List.take_left]
  zstd_encode_all d := .ok d
  zstd_decode_all d := .ok d
  zstd_decode_encode d c h := by
    cases h
    rfl
  rmp_to_vec r := .ok (r.salt.length :: (r.salt ++ r.encrypted))
  rmp_from_slice p :=
    match p with
    | [] => .error "truncated record"
    | n :: rest =>
      if n ≤ rest.length then .ok ⟨rest.take n, rest.drop n⟩
      else .error "truncated record"
  rmp_from_to r p h := by
    cases r with
    | mk salt encrypted =>
      cases h
      have hle : salt.length ≤ (salt ++ encrypted).length := by
        simp
      simp only [if_pos hle, List.take_left, List.drop_left]
  b64_encode d := 0 :: d
  b64_decode s :=
    match s with
    | 0 :: rest => .ok rest
    | _ => .error "invalid base64"
  b64_decode_encode d := rfl

/-! ## Concrete inputs used to instantiate the theorems -/

/-- Value of an `ok` outcome, `[]` for errors. -/
def okD (e : Except QrProcessorError (List Nat)) : List Nat :=
  match e with
  | .ok v => v
  | .error _ => []

def wSalt : List Nat := List.replicate SALTBYTES 0

def wSalt2 : List Nat := 1 :: List.replicate (SALTBYTES - 1) 0

def wNonce : List Nat := List.replicate NONCEBYTES 0

def wB : List Nat := [1, 2, 3]

def wP : List Nat := [5]

def wP2 : List Nat := [6]

/-- Transport string produced by the test instance on `wB`/`wP`/`wSalt`. -/
def wS : List Nat := okD (QrDataProcessor.serialize testLib wB wP wSalt wNonce)

/-- Transport string for the same payload and password but a second salt. -/
def wS2 : List Nat := okD (QrDataProcessor.serialize testLib wB wP wSalt2 wNonce)

/-- A test-instance transport string that decodes and unpacks to a record
with a valid-length salt (used against the empty password). -/
def wC2s : List Nat := 0 :: SALTBYTES :: (List.replicate SALTBYTES 0 ++ [9])

/-- A test-instance transport string whose record has an `encrypted` field
shorter than the nonce size. -/
def wC4s : List Nat := 0 :: SALTBYTES :: (List.replicate SALTBYTES 0 ++ [1, 2])

/-- A test-instance transport string whose record has a 3-byte salt. -/
def wC9s : List Nat := 0 :: 3 :: [7, 7, 7]

/-- A 3000-byte incompressible-for-the-test-instance payload. -/
def wBig : List Nat := List.replicate 3000 7

/-! ## Theorems -/

theorem pow2_odd_inj (b : Nat) : ∀ b' x x', 2 ^ b * (2 * x + 1) = 2 ^ b' * (2 * x' + 1) →
    b = b' ∧ x = x' := by
  induction b with
  | zero =>
    intro b' x x' h
    cases b' with
    | zero => simp at h; omega
    | succ c =>
      exfalso
      have hr : 2 ^ (c + 1) * (2 * x' + 1) = 2 * (2 ^ c * (2 * x' + 1)) := by ring
      rw [hr] at h
      simp at h
      omega
  | succ c ih =>
    intro b' x x' h
    cases b' with
    | zero =>
      exfalso
      have hl : 2 ^ (c + 1) * (2 * x + 1) = 2 * (2 ^ c * (2 * x + 1)) := by ring
      rw [hl] at h
      simp at h
      omega
    | succ c' =>
      have hl : 2 ^ (c + 1) * (2 * x + 1) = 2 * (2 ^ c * (2 * x + 1)) := by ring
      have hr : 2 ^ (c' + 1) * (2 * x' + 1) = 2 * (2 ^ c' * (2 * x' + 1)) := by ring
      rw [hl, hr] at h
      have h2 : 2 ^ c * (2 * x + 1) = 2 ^ c' * (2 * x' + 1) := by omega
      have := ih c' x x' h2
      omega

theorem encL_inj : ∀ k k' : List Nat, encL k = encL k' → k = k' := by
  intro k
  induction k with
  | nil =>
    intro k' h
    cases k' with
    | nil => rfl
    | cons b t =>
      exfalso
      simp [encL] at h
  | cons b t ih =>
    intro k' h
    cases k' with
    | nil =>
      exfalso
      simp [encL] at h
    | cons b' t' =>
      simp only [encL] at h
      obtain ⟨hb, hx⟩ := pow2_odd_inj b b' (encL t) (encL t') h
      rw [hb, ih t' hx]

theorem tagOf_inj (k k' : List Nat) (h : tagOf k = tagOf k') : k = k' := by
  simp only [tagOf, List.cons.injEq] at h
  exact encL_inj k k' h.1

/-- For the test cipher, opening a sealed buffer under any other key fails:
the idealized wrong-key behaviour of an authenticated cipher. -/
theorem testLib_open_wrong (m n n' k k' : List Nat) (hkk : k ≠ k') :
    testLib.secretbox_open (testLib.secretbox_seal m n k) n' k' = none := by
  show (if MACBYTES ≤ (m ++ tagOf k).length ∧
      (m ++ tagOf k).drop ((m ++ tagOf k).length - MACBYTES) = tagOf k' then
      some ((m ++ tagOf k).take ((m ++ tagOf k).length - MACBYTES))
    else none) = none
  rw [if_neg]
  intro hcond
  apply hkk
  have hlen : (m ++ tagOf k).length = m.length + MACBYTES := by
    simp [tagOf, MACBYTES]
  have hsub : (m ++ tagOf k).length - MACBYTES = m.length := by omega
  have hdrop : (m ++ tagOf k).drop m.length = tagOf k := List.drop_left m (tagOf k)
  have : tagOf k = tagOf k' := by
    rw [← hdrop, ← hsub]
    exact hcond.2
  exact tagOf_inj k k' this

open crypto_utils QrDataProcessor

/-- Inversion of a successful `serialize`: the output is the base64 encoding
of the msgpack packing of the record whose `salt` field is the generated salt
in the clear and whose `encrypted` field is the nonce followed by the seal of
the *compressed* payload under the derived key. -/
theorem serialize_shape (L : ExtLib) (b p salt nonce s : List Nat)
    (hp : p ≠ []) (hser : serialize L b p salt nonce = .ok s) :
    ∃ cb pk, L.zstd_encode_all b = .ok cb ∧
      L.rmp_to_vec ⟨salt, nonce ++ L.secretbox_seal cb nonce (L.argon2_derive p salt)⟩ = .ok pk ∧
      s = L.b64_encode pk := by
  simp only [serialize, derive_key, if_neg hp, encrypt] at hser
  cases h1 : L.zstd_encode_all b with
  | error e =>
    simp only [h1] at hser
    exact Except.noConfusion hser
  | ok cb =>
    simp only [h1] at hser
    cases h2 : L.rmp_to_vec ⟨salt, nonce ++ L.secretbox_seal cb nonce (L.argon2_derive p salt)⟩ with
    | error e =>
      simp only [h2] at hser
      exact Except.noConfusion hser
    | ok pk =>
      simp only [h2, Except.ok.injEq] at hser
      exact ⟨cb, pk, rfl, h2, hser.symm⟩

/-- `deserialize` inverts a successful `serialize` stage by stage. -/
theorem deserialize_of_serialize (L : ExtLib) (b p salt nonce s : List Nat)
    (hp : p ≠ []) (hsalt : salt.length = SALTBYTES) (hnonce : nonce.length = NONCEBYTES)
    (hser : serialize L b p salt nonce = .ok s) :
    deserialize L s p = .ok b := by
  obtain ⟨cb, pk, h1, h2, h3⟩ := serialize_shape L b p salt nonce s hp hser
  subst h3
  have hdec := L.b64_decode_encode pk
  have hun := L.rmp_from_to _ pk h2
  have hopen := L.secretbox_open_seal cb nonce (L.argon2_derive p salt)
  have hslen := L.secretbox_seal_len cb nonce (L.argon2_derive p salt)
  have hdecomp := L.zstd_decode_encode b cb h1
  have hlen : (nonce ++ L.secretbox_seal cb nonce (L.argon2_derive p salt)).length =
      NONCEBYTES + (cb.length + MACBYTES) := by
    rw [List.length_append, hnonce, hslen]
  have hnlt : ¬ (nonce ++ L.secretbox_seal cb nonce (L.argon2_derive p salt)).length <
      NONCEBYTES := by
    rw [hlen]
    omega
  have hdrop : (nonce ++ L.secretbox_seal cb nonce (L.argon2_derive p salt)).drop NONCEBYTES =
      L.secretbox_seal cb nonce (L.argon2_derive p salt) := by
    rw [← hnonce, List.drop_left]
  have htake : (nonce ++ L.secretbox_seal cb nonce (L.argon2_derive p salt)).take NONCEBYTES =
      nonce := by
    rw [← hnonce, List.take_left]
  simp only [deserialize, hdec, hun, hsalt, if_pos, derive_key, if_neg hp, decrypt,
    if_neg hnlt, hdrop, htake, hopen, hdecomp]

/-- C1: for every non-empty byte sequence `b` and non-empty password `p` of
length at most 20, `deserialize (serialize b p) p` succeeds and returns
exactly `b` — the byte-for-byte round trip through compress, encrypt,
msgpack-pack, base64-encode and their inverses. The freshly generated salt
and nonce have the fixed lengths the generators produce. -/
theorem round_trip_deserialize_serialize (L : ExtLib) (b p salt nonce s : List Nat)
    (_hb : b ≠ []) (hp : p ≠ []) (_hplen : p.length ≤ 20)
    (hsalt : salt.length = SALTBYTES) (hnonce : nonce.length = NONCEBYTES)
    (hser : serialize L b p salt nonce = .ok s) :
    deserialize L s p = .ok b :=
  deserialize_of_serialize L b p salt nonce s hp hsalt hnonce hser

theorem round_trip_deserialize_serialize_witness :
    deserialize testLib wS wP = .ok wB :=
  round_trip_deserialize_serialize testLib wB wP wSalt wNonce wS (by decide) (by decide)
    (by decide) (by decide) (by decide) (by decide)

/-- C2 counterexample: with the empty password, `deserialize` of a transport
string that is not valid base64 fails with the `Base64` error kind, not with
`InvalidPassword` — the text-decoding stage runs before the password is ever
looked at, so the claim "fails with the InvalidPassword kind regardless of
`s`" is false. -/
theorem empty_password_base64_error_first :
    deserialize testLib [1] [] = .error (.Base64 "invalid base64") ∧
    QrProcessorError.Base64 "invalid base64" ≠ .Crypto .InvalidPassword := by
  constructor
  · rfl
  · intro h
    exact QrProcessorError.noConfusion h

/-- C2 (amended): `serialize(b, "")` always fails with `InvalidPassword`,
before compression or any encryption step; `deserialize(s, "")` always fails,
and it fails with `InvalidPassword` exactly on those `s` that survive the
earlier stages (base64-decode and msgpack-unpack succeed and the recovered
salt has the valid length) — otherwise the earlier stage's own error kind
(`Base64`, `Serialization` or `InvalidSalt`) is reported. -/
theorem empty_password_rejected (L : ExtLib) (b salt nonce s : List Nat) :
    serialize L b [] salt nonce = .error (.Crypto .InvalidPassword) ∧
    (∃ e, deserialize L s [] = .error e) ∧
    (∀ pk r, L.b64_decode s = .ok pk → L.rmp_from_slice pk = .ok r →
      r.salt.length = SALTBYTES →
      deserialize L s [] = .error (.Crypto .InvalidPassword)) := by
  refine ⟨?_, ?_, ?_⟩
  · simp [serialize, derive_key]
  · unfold deserialize
    cases hdec : L.b64_decode s with
    | error e => exact ⟨.Base64 e, by simp⟩
    | ok pk =>
      cases hun : L.rmp_from_slice pk with
      | error e => exact ⟨.Serialization e, by simp [hun]⟩
      | ok r =>
        by_cases hsl : r.salt.length = SALTBYTES
        · exact ⟨.Crypto .InvalidPassword, by simp [hun, hsl, derive_key]⟩
        · exact ⟨.Crypto .InvalidSalt, by simp [hun, hsl]⟩
  · intro pk r hdec hun hsl
    simp [deserialize, hdec, hun, hsl, derive_key]

theorem empty_password_rejected_witness :
    serialize testLib wB [] wSalt wNonce = .error (.Crypto .InvalidPassword) ∧
    deserialize testLib wC2s [] = .error (.Crypto .InvalidPassword) := by
  have h := empty_password_rejected testLib wB wSalt wNonce wC2s
  exact ⟨h.1, h.2.2 (SALTBYTES :: (List.replicate SALTBYTES 0 ++ [9]))
    ⟨List.replicate SALTBYTES 0, [9]⟩ (by decide) (by decide) (by decide)⟩

/-- C3: `deserialize (serialize b p1) p2` with distinct non-empty passwords
fails with the `DecryptionFailed` kind — the same single kind used for
corrupted or tampered ciphertext. The "overwhelming probability" of the claim
is formalized as the two hypotheses that are violated only with negligible
probability over the random salt: the two derived keys differ, and the
authenticated cipher refuses to open a sealed buffer under a wrong key. -/
theorem password_sensitivity (L : ExtLib) (b p1 p2 salt nonce s : List Nat)
    (hp1 : p1 ≠ []) (hp2 : p2 ≠ []) (_hpp : p1 ≠ p2)
    (hsalt : salt.length = SALTBYTES) (hnonce : nonce.length = NONCEBYTES)
    (hser : serialize L b p1 salt nonce = .ok s)
    (hkeys : L.argon2_derive p1 salt ≠ L.argon2_derive p2 salt)
    (hideal : ∀ m n n' k k', k ≠ k' →
      L.secretbox_open (L.secretbox_seal m n k) n' k' = none) :
    deserialize L s p2 = .error (.Crypto .DecryptionFailed) := by
  obtain ⟨cb, pk, h1, h2, h3⟩ := serialize_shape L b p1 salt nonce s hp1 hser
  subst h3
  have hdec := L.b64_decode_encode pk
  have hun := L.rmp_from_to _ pk h2
  have hslen := L.secretbox_seal_len cb nonce (L.argon2_derive p1 salt)
  have hopen := hideal cb nonce nonce (L.argon2_derive p1 salt) (L.argon2_derive p2 salt) hkeys
  have hlen : (nonce ++ L.secretbox_seal cb nonce (L.argon2_derive p1 salt)).length =
      NONCEBYTES + (cb.length + MACBYTES) := by
    rw [List.length_append, hnonce, hslen]
  have hnlt : ¬ (nonce ++ L.secretbox_seal cb nonce (L.argon2_derive p1 salt)).length <
      NONCEBYTES := by
    rw [hlen]
    omega
  have hdrop : (nonce ++ L.secretbox_seal cb nonce (L.argon2_derive p1 salt)).drop NONCEBYTES =
      L.secretbox_seal cb nonce (L.argon2_derive p1 salt) := by
    rw [← hnonce, List.drop_left]
  have htake : (nonce ++ L.secretbox_seal cb nonce (L.argon2_derive p1 salt)).take NONCEBYTES =
      nonce := by
    rw [← hnonce, List.take_left]
  simp only [deserialize, hdec, hun, hsalt, if_pos, derive_key, if_neg hp2, decrypt,
    if_neg hnlt, hdrop, htake, hopen]

theorem password_sensitivity_witness :
    deserialize testLib wS wP2 = .error (.Crypto .DecryptionFailed) :=
  password_sensitivity testLib wB wP wP2 wSalt wNonce wS (by decide) (by decide) (by decide)
    (by decide) (by decide) (by decide) (by decide) testLib_open_wrong

/-- C4: `decrypt` fails with `DecryptionFailed` on every buffer shorter than
the nonce length, and `deserialize` rejects every decoded record whose
`encrypted` field is shorter than the nonce size with the same kind (for any
structurally valid record with a valid salt and a non-empty password, so that
the earlier stages cannot mask the length check). -/
theorem short_ciphertext_rejected (L : ExtLib) (blob key s p pk : List Nat) (r : QrData)
    (hshort : blob.length < NONCEBYTES)
    (hdec : L.b64_decode s = .ok pk) (hun : L.rmp_from_slice pk = .ok r)
    (hsl : r.salt.length = SALTBYTES) (hp : p ≠ [])
    (hrshort : r.encrypted.length < NONCEBYTES) :
    decrypt L blob key = .error .DecryptionFailed ∧
    deserialize L s p = .error (.Crypto .DecryptionFailed) := by
  constructor
  · simp [decrypt, hshort]
  · simp [deserialize, hdec, hun, hsl, derive_key, hp, decrypt, hrshort]

theorem short_ciphertext_rejected_witness :
    decrypt testLib [1, 2] [] = .error .DecryptionFailed ∧
    deserialize testLib wC4s wP = .error (.Crypto .DecryptionFailed) :=
  short_ciphertext_rejected testLib [1, 2] [] wC4s wP
    (SALTBYTES :: (List.replicate SALTBYTES 0 ++ [1, 2]))
    ⟨List.replicate SALTBYTES 0, [1, 2]⟩
    (by decide) (by decide) (by decide) (by decide) (by decide) (by decide)

/-- C5: `encrypt` always succeeds, and its result is one contiguous buffer
consisting of the fresh random nonce in the leading position followed by the
ciphertext-with-tag, of total length `NONCEBYTES + plaintext length +
MACBYTES`. -/
theorem encrypt_always_ok_shape (L : ExtLib) (data key nonce : List Nat)
    (hnonce : nonce.length = NONCEBYTES) :
    encrypt L data key nonce = .ok (nonce ++ L.secretbox_seal data nonce key) ∧
    (nonce ++ L.secretbox_seal data nonce key).length =
      NONCEBYTES + data.length + MACBYTES ∧
    (nonce ++ L.secretbox_seal data nonce key).take NONCEBYTES = nonce := by
  refine ⟨rfl, ?_, ?_⟩
  · rw [List.length_append, hnonce, L.secretbox_seal_len]
    omega
  · rw [← hnonce, List.take_left]

theorem encrypt_always_ok_shape_witness :
    encrypt testLib [1] [] wNonce = .ok (wNonce ++ testLib.secretbox_seal [1] wNonce []) ∧
    (wNonce ++ testLib.secretbox_seal [1] wNonce []).length =
      NONCEBYTES + [1].length + MACBYTES ∧
    (wNonce ++ testLib.secretbox_seal [1] wNonce []).take NONCEBYTES = wNonce :=
  encrypt_always_ok_shape testLib [1] [] wNonce (by decide)

/-- C6: a successful `serialize` is exactly the pipeline compress, then
encrypt the compressed bytes (fresh salt and nonce), then pack the
`{salt, encrypted}` record (the salt travelling unencrypted in it), then
base64-encode — formalized by the output characterization — and
`deserialize` is its exact mirror, recovering the payload. -/
theorem serialize_pipeline_order (L : ExtLib) (b p salt nonce s : List Nat)
    (hp : p ≠ []) (hsalt : salt.length = SALTBYTES) (hnonce : nonce.length = NONCEBYTES)
    (hser : serialize L b p salt nonce = .ok s) :
    (∃ cb pk, L.zstd_encode_all b = .ok cb ∧
      L.rmp_to_vec ⟨salt, nonce ++ L.secretbox_seal cb nonce (L.argon2_derive p salt)⟩ =
        .ok pk ∧
      s = L.b64_encode pk) ∧
    deserialize L s p = .ok b :=
  ⟨serialize_shape L b p salt nonce s hp hser,
    deserialize_of_serialize L b p salt nonce s hp hsalt hnonce hser⟩

theorem serialize_pipeline_order_witness :
    (∃ cb pk, testLib.zstd_encode_all wB = .ok cb ∧
      testLib.rmp_to_vec
        ⟨wSalt, wNonce ++ testLib.secretbox_seal cb wNonce (testLib.argon2_derive wP wSalt)⟩ =
        .ok pk ∧
      wS = testLib.b64_encode pk) ∧
    deserialize testLib wS wP = .ok wB :=
  serialize_pipeline_order testLib wB wP wSalt wNonce wS (by decide) (by decide) (by decide)
    (by decide)

/-- C7: `serialize` never fails because of the length of its output — it
succeeds on any payload, in particular a 3000-byte incompressible one, as
long as the password is non-empty (given that the compressor and packer
succeed, which they always do on byte input) — and the 2953-character
capacity ceiling is enforced only by the caller in `generate_qr_async`,
which accepts the produced transport string exactly when its length is
strictly less than `MAX_QR_BYTES`. -/
theorem serialize_no_size_limit (L : ExtLib) (b p salt nonce : List Nat)
    (hp : p ≠ [])
    (hcomp : ∀ d, ∃ c, L.zstd_encode_all d = .ok c)
    (hpack : ∀ r, ∃ q, L.rmp_to_vec r = .ok q) :
    (∃ s, serialize L b p salt nonce = .ok s) ∧
    (∀ t : List Nat, qr_size_gate t = .ok t ↔ t.length < MAX_QR_BYTES) := by
  constructor
  · obtain ⟨cb, hcb⟩ := hcomp b
    obtain ⟨q, hq⟩ := hpack ⟨salt, nonce ++ L.secretbox_seal cb nonce (L.argon2_derive p salt)⟩
    exact ⟨L.b64_encode q, by simp [serialize, derive_key, hp, hcb, encrypt, hq]⟩
  · intro t
    unfold qr_size_gate
    by_cases hge : t.length ≥ MAX_QR_BYTES
    · rw [if_pos hge]
      constructor
      · intro h
        exact Except.noConfusion h
      · intro h
        exact absurd h (by omega)
    · rw [if_neg hge]
      constructor
      · intro _
        omega
      · intro _
        rfl

theorem serialize_no_size_limit_witness :
    (∃ s, serialize testLib wBig wP wSalt wNonce = .ok s) ∧
    (∀ t : List Nat, qr_size_gate t = .ok t ↔ t.length < MAX_QR_BYTES) :=
  serialize_no_size_limit testLib wBig wP wSalt wNonce (by decide)
    (fun d => ⟨d, rfl⟩)
    (fun r => ⟨r.salt.length :: (r.salt ++ r.encrypted), rfl⟩)

/-- C8: two `serialize` calls on the same payload and password with the fresh
randomness the generators draw (here: any two distinct salts) produce two
different transport strings, yet each output independently decodes back to
the payload under the same password. -/
theorem fresh_salt_distinct_outputs (L : ExtLib)
    (b p salt1 nonce1 salt2 nonce2 s1 s2 : List Nat)
    (hp : p ≠ []) (hss : salt1 ≠ salt2)
    (hsalt1 : salt1.length = SALTBYTES) (hsalt2 : salt2.length = SALTBYTES)
    (hnonce1 : nonce1.length = NONCEBYTES) (hnonce2 : nonce2.length = NONCEBYTES)
    (h1 : serialize L b p salt1 nonce1 = .ok s1)
    (h2 : serialize L b p salt2 nonce2 = .ok s2) :
    s1 ≠ s2 ∧ deserialize L s1 p = .ok b ∧ deserialize L s2 p = .ok b := by
  refine ⟨?_, deserialize_of_serialize L b p salt1 nonce1 s1 hp hsalt1 hnonce1 h1,
    deserialize_of_serialize L b p salt2 nonce2 s2 hp hsalt2 hnonce2 h2⟩
  obtain ⟨cb1, pk1, hc1, hk1, he1⟩ := serialize_shape L b p salt1 nonce1 s1 hp h1
  obtain ⟨cb2, pk2, hc2, hk2, he2⟩ := serialize_shape L b p salt2 nonce2 s2 hp h2
  intro heq
  apply hss
  rw [he1, he2] at heq
  have hpk : pk1 = pk2 := by
    have d1 := L.b64_decode_encode pk1
    rw [heq, L.b64_decode_encode pk2] at d1
    exact (Except.ok.inj d1).symm
  have r1 := L.rmp_from_to _ pk1 hk1
  rw [hpk, L.rmp_from_to _ pk2 hk2] at r1
  have hrec := Except.ok.inj r1
  exact congrArg QrData.salt hrec.symm

theorem fresh_salt_distinct_outputs_witness :
    wS ≠ wS2 ∧ deserialize testLib wS wP = .ok wB ∧ deserialize testLib wS2 wP = .ok wB :=
  fresh_salt_distinct_outputs testLib wB wP wSalt wNonce wSalt2 wNonce wS wS2
    (by decide) (by decide) (by decide) (by decide) (by decide) (by decide)
    (by decide) (by decide)

/-- C9: during decode, once text-decoding and unpacking succeed, a record
whose salt does not have exactly the key-derivation algorithm's fixed salt
length is rejected with `InvalidSalt` — for every password, including the
empty one, showing that the failure occurs before any key is derived. -/
theorem invalid_salt_rejected (L : ExtLib) (s p pk : List Nat) (r : QrData)
    (hdec : L.b64_decode s = .ok pk) (hun : L.rmp_from_slice pk = .ok r)
    (hbad : r.salt.length ≠ SALTBYTES) :
    deserialize L s p = .error (.Crypto .InvalidSalt) := by
  simp [deserialize, hdec, hun, hbad]

theorem invalid_salt_rejected_witness :
    deserialize testLib wC9s [] = .error (.Crypto .InvalidSalt) :=
  invalid_salt_rejected testLib wC9s [] (3 :: [7, 7, 7]) ⟨[7, 7, 7], []⟩
    (by decide) (by decide) (by decide)

/-- C10: the cryptographic subsystem initialization run at the start of every
`serialize` and `deserialize` never surfaces any of the defined error kinds:
on underlying failure it panics (`none` — the `expect` aborts the call), and
once (or whenever) the library is initialized, calling it again succeeds and
leaves the state unchanged (idempotent). -/
theorem init_panics_never_errors :
    (∀ lib_ok already : Bool,
      init_st lib_ok already = none ∨ init_st lib_ok already = some true) ∧
    init_st false false = none ∧
    (∀ lib_ok : Bool, init_st lib_ok true = some true) ∧
    init_st true false = some true := by
  refine ⟨?_, rfl, ?_, rfl⟩
  · intro lib_ok already
    cases lib_ok <;> cases already <;> simp [init_st]
  · intro lib_ok
    cases lib_ok <;> rfl
